import Mathlib

/-!
Shallow embedding of the `VehicleStreamer` class (vehicle streaming and
respawn lifecycle), together with proofs of the behavioural properties
claimed for it.

Modelling conventions:
* JavaScript `Map` objects keyed by object identity are embedded as
  association lists keyed by a numeric identity field (`sid` for stored
  vehicle descriptors, `vid` for live vehicles).
* Engine-side mutable vehicle state (position, occupancy, connectivity,
  trailer attachment) is read from an explicit `world : List Vehicle`
  snapshot passed to each entry point, mirroring the fact that the engine
  mutates live vehicles between the streamer's suspension points.
* Times and coordinates are rationals; the only numeric operations the code
  performs on them (multiplication by the constants 1 and 0.5, sign tests
  and order comparisons) are exact in the source's number type as well.
* External calls (death hooks, `vehicle.respawn()`, `vehicle.dispose()`)
  are recorded in an `Effect` trace; streamer-owned bookkeeping (the two
  descriptor/live maps, respawn tokens, pins) is explicit state.
* `async` functions that `await` a timer are split at the suspension
  point: a synchronous scheduling prefix and a firing continuation that
  receives the (possibly changed) state at firing time.
-/

/-- A point in world space. -/
structure Pos where
  x : ℚ
  y : ℚ
  z : ℚ
deriving DecidableEq, Repr

/-- Squared Euclidean distance between two points. -/
def distSq (p q : Pos) : ℚ :=
  (p.x - q.x) * (p.x - q.x) + (p.y - q.y) * (p.y - q.y) + (p.z - q.z) * (p.z - q.z)

/-- A `StoredVehicle` descriptor: the persistent, engine-independent
description of a vehicle.  Callback hooks (`deathFn`, `respawnFn`,
`accessFn`) are embedded as presence flags; their invocation is recorded
in the effect trace.  The `sid` field models JavaScript object identity of
the descriptor. -/
structure StoredVehicle where
  sid : Nat
  modelId : Nat
  position : Pos
  rotation : ℚ
  interiorId : Int
  virtualWorld : Int
  primaryColor : Nat
  secondaryColor : Nat
  paintjob : Nat
  numberPlate : String
  siren : Bool
  respawnDelay : ℚ
  hasDeathFn : Bool
  hasRespawnFn : Bool
deriving DecidableEq, Repr

/-- A live engine vehicle: engine-assigned identity `vid` plus the mutable
state the streamer reads (position, world, interior, occupancy,
connectivity, attached trailer). -/
structure Vehicle where
  vid : Nat
  position : Pos
  interiorId : Int
  virtualWorld : Int
  occupantCount : Nat
  connected : Bool
  trailer : Option Nat
deriving DecidableEq, Repr

/-- Modelled from the spec: the engine's occupancy test `isOccupied()`;
a vehicle is occupied exactly when its occupant count is non-zero. -/
def Vehicle.isOccupied (v : Vehicle) : Bool :=
  v.occupantCount != 0

/-- Lookup of a live vehicle by its engine identity in a world snapshot. -/
def findVeh (world : List Vehicle) (vid : Nat) : Option Vehicle :=
  world.find? (fun v => v.vid == vid)

/-- Association-list lookup for a `Map` with numeric keys. -/
def mget {α : Type} (m : List (Nat × α)) (k : Nat) : Option α :=
  (m.find? (fun p => p.1 == k)).map (fun p => p.2)

/-- Association-list deletion (`Map.delete`). -/
def mdel {α : Type} (m : List (Nat × α)) (k : Nat) : List (Nat × α) :=
  m.filter (fun p => p.1 != k)

/-- Association-list update (`Map.set`). -/
def mset {α : Type} (m : List (Nat × α)) (k : Nat) (v : α) : List (Nat × α) :=
  (k, v) :: mdel m k

/-- Lookup in the descriptor-to-live map `vehicles_`, keyed by descriptor
identity. -/
def vfind (m : List (StoredVehicle × Nat)) (sid : Nat) : Option (StoredVehicle × Nat) :=
  m.find? (fun p => p.1.sid == sid)

/-- Modelled from the spec: the pin table of the `EntityStreamerGlobal`
base class (not under src/).  A pin is a (descriptor, tag) pair; pins are
additive by tag. -/
def pinInsert (pins : List (Nat × Nat)) (sid tag : Nat) : List (Nat × Nat) :=
  if (sid, tag) ∈ pins then pins else (sid, tag) :: pins

/-- Modelled from the spec: `unpin(descriptor, tag)` of the base class
removes exactly that tag's pin for that descriptor, leaving other tags and
other descriptors untouched. -/
def pinErase (pins : List (Nat × Nat)) (sid tag : Nat) : List (Nat × Nat) :=
  pins.filter (fun p => !(p.1 == sid && p.2 == tag))

/-- The `RecentUsagePin` symbol, used to keep recently used vehicles alive. -/
def recentUsagePin : Nat := 0

/-- Time, in seconds, between detecting moved unoccupied vehicles. -/
def UnoccupiedVehicleStatusUpdateSec : Nat := 45

/-- Units, in change of position, following which an unoccupied vehicle
will be scheduled for respawn. -/
def UnoccupiedRespawnThreshold : ℚ := 3 / 2

/-- Modelled from the spec: the engine's `Vector.closeTo(other, maxDistance)`,
true when the Euclidean distance is at most the threshold (compared in
squared form, which is exact and order-isomorphic). -/
def closeTo (p q : Pos) (t : ℚ) : Bool :=
  decide (distSq p q ≤ t * t)

/-- The streamer's bookkeeping state: the two identity maps, the respawn
token table, the base class's pin table, and freshness counters for token
symbols and engine vehicle identities. -/
structure StreamerState where
  vehicles : List (StoredVehicle × Nat)
  storedVehicles : List (Nat × StoredVehicle)
  respawnTokens : List (Nat × Nat)
  pins : List (Nat × Nat)
  nextToken : Nat
  nextVid : Nat
deriving DecidableEq, Repr

/-- The empty streamer state, as after construction. -/
def initialState : StreamerState :=
  { vehicles := [], storedVehicles := [], respawnTokens := [], pins := [],
    nextToken := 0, nextVid := 0 }

/-- An externally visible call made by the streamer. -/
inductive Effect where
  | deathHook (vid sid : Nat)
  | respawnVeh (vid : Nat)
  | disposeVeh (vid : Nat)
deriving DecidableEq, Repr

/-- Outcome of the synchronous prefix of `scheduleVehicleForRespawn`:
either the sentinel branch was taken (no timer started, pin released), or
a respawn is pending with the given token and delay in seconds. -/
inductive SchedOutcome where
  | noRespawn : SchedOutcome
  | pending (token : Nat) (respawnTime : ℚ) : SchedOutcome
deriving DecidableEq, Repr

/-- Synchronous prefix of `scheduleVehicleForRespawn(vehicle, storedVehicle,
timeMultipler)`, up to the `await seconds(respawnTime)` suspension: computes
`respawnDelay * timeMultipler`; when negative, unpins the recent-usage pin
and stops; otherwise allocates a fresh token and stores it for the vehicle. -/
def scheduleVehicleForRespawn (st : StreamerState) (vehicle : Vehicle)
    (storedVehicle : StoredVehicle) (timeMultipler : ℚ) : StreamerState × SchedOutcome :=
  let respawnTime := storedVehicle.respawnDelay * timeMultipler
  if respawnTime < 0 then
    ({ st with pins := pinErase st.pins storedVehicle.sid recentUsagePin },
     SchedOutcome.noRespawn)
  else
    ({ st with respawnTokens := mset st.respawnTokens vehicle.vid st.nextToken,
               nextToken := st.nextToken + 1 },
     SchedOutcome.pending st.nextToken (storedVehicle.respawnDelay * timeMultipler))

/-- One link of the respawn cascade: re-look-up the descriptor for the
current vehicle; when it is managed, unpin it, delete its token and invoke
its death hook if present; in any case respawn the vehicle if connected. -/
def respawnLink (st : StreamerState) (v : Vehicle) : StreamerState × List Effect :=
  match mget st.storedVehicles v.vid with
  | some sv =>
      ({ st with pins := pinErase st.pins sv.sid recentUsagePin,
                 respawnTokens := mdel st.respawnTokens v.vid },
       (if sv.hasDeathFn then [Effect.deathHook v.vid sv.sid] else []) ++
         (if v.connected then [Effect.respawnVeh v.vid] else []))
  | none => (st, if v.connected then [Effect.respawnVeh v.vid] else [])

/-- The `while (vehicle)` trailer-cascade loop of `scheduleVehicleForRespawn`.
The fuel argument bounds the chain length; the firing entry point supplies
fuel exceeding the world size, so only an (engine-impossible) trailer cycle
could exhaust it. -/
def respawnChainLoop (world : List Vehicle) :
    Nat → StreamerState → Option Vehicle → StreamerState × List Effect
  | 0, st, _ => (st, [])
  | _ + 1, st, none => (st, [])
  | fuel + 1, st, some v =>
      let trailer := v.trailer.bind (findVeh world)
      let r1 := respawnLink st v
      let r2 := respawnChainLoop world fuel r1.1 trailer
      (r2.1, r1.2 ++ r2.2)

/-- The firing continuation of `scheduleVehicleForRespawn`, resumed after
the delay with the state and world as they are at firing time: re-validate
(connected, token still current) and abandon silently otherwise; on success
run the trailer cascade starting at the captured vehicle. -/
def fireScheduledRespawn (world : List Vehicle) (st : StreamerState)
    (v : Vehicle) (token : Nat) : StreamerState × List Effect :=
  if v.connected = false ∨ mget st.respawnTokens v.vid ≠ some token then (st, [])
  else respawnChainLoop world (world.length + 1) st (some v)

/-- Embedding of `createEntity(storedVehicle)`: fail fast when a live vehicle already
exists for the descriptor; otherwise create a fresh engine vehicle from
the descriptor's attributes and record it in both identity maps.  (The
subsequent `synchronizeAccessForVehicle` call only issues per-player
lock/unlock engine calls and touches no streamer state.) -/
def createEntity (st : StreamerState) (storedVehicle : StoredVehicle) :
    Except String (StreamerState × Vehicle) :=
  if (vfind st.vehicles storedVehicle.sid).isSome then
    Except.error "Attempting to create a vehicle that already exists."
  else
    let vehicle : Vehicle :=
      { vid := st.nextVid, position := storedVehicle.position,
        interiorId := storedVehicle.interiorId,
        virtualWorld := storedVehicle.virtualWorld,
        occupantCount := 0, connected := true, trailer := none }
    Except.ok
      ({ st with vehicles := (storedVehicle, vehicle.vid) :: st.vehicles,
                 storedVehicles := (vehicle.vid, storedVehicle) :: st.storedVehicles,
                 nextVid := st.nextVid + 1 },
       vehicle)

/-- Embedding of `deleteEntity(storedVehicle)`: fail fast when no live vehicle exists for
the descriptor; otherwise remove both map entries, invoke the death hook if
present, and dispose the vehicle if still connected. -/
def deleteEntity (world : List Vehicle) (st : StreamerState)
    (storedVehicle : StoredVehicle) : Except String (StreamerState × List Effect) :=
  match vfind st.vehicles storedVehicle.sid with
  | none => Except.error "Attempting to delete an invalid vehicle."
  | some entry =>
      Except.ok
        ({ st with vehicles := st.vehicles.filter (fun p => p.1.sid != storedVehicle.sid),
                   storedVehicles := mdel st.storedVehicles entry.2 },
         (if storedVehicle.hasDeathFn then [Effect.deathHook entry.2 storedVehicle.sid] else []) ++
           (match findVeh world entry.2 with
            | some v => if v.connected then [Effect.disposeVeh entry.2] else []
            | none => []))

/-- Embedding of `onPlayerEnterVehicle(player, vehicle)`: when the vehicle is managed by
the streamer, pin its descriptor with the recent-usage pin and delete the
vehicle's respawn token; otherwise do nothing. -/
def onPlayerEnterVehicle (st : StreamerState) (vehicle : Vehicle) : StreamerState :=
  match mget st.storedVehicles vehicle.vid with
  | none => st
  | some storedVehicle =>
      { st with pins := pinInsert st.pins storedVehicle.sid recentUsagePin,
                respawnTokens := mdel st.respawnTokens vehicle.vid }

/-- Embedding of `onPlayerLeaveVehicle(player, vehicle)`: when the vehicle is managed and
at most one occupant is (still) inside at event time, schedule a respawn at
the default multiplier 1; otherwise do nothing.  The second component
reports whether and how `scheduleVehicleForRespawn` was invoked. -/
def onPlayerLeaveVehicle (st : StreamerState) (vehicle : Vehicle) :
    StreamerState × Option SchedOutcome :=
  match mget st.storedVehicles vehicle.vid with
  | none => (st, none)
  | some storedVehicle =>
      if 1 < vehicle.occupantCount then (st, none)
      else
        let r := scheduleVehicleForRespawn st vehicle storedVehicle 1
        (r.1, some r.2)

/-- The `respawnUnoccupiedVehicles()` loop body over the entries of `vehicles_`:
skip occupied vehicles; for each unoccupied one delete its respawn token,
invoke the descriptor's death hook if present and respawn it if connected. -/
def respawnUnoccupiedRun (world : List Vehicle) :
    StreamerState → List (StoredVehicle × Nat) → StreamerState × List Effect
  | st, [] => (st, [])
  | st, entry :: rest =>
      match findVeh world entry.2 with
      | none => respawnUnoccupiedRun world st rest
      | some v =>
          if 0 < v.occupantCount then respawnUnoccupiedRun world st rest
          else
            let st' := { st with respawnTokens := mdel st.respawnTokens v.vid }
            let effs := (if entry.1.hasDeathFn then [Effect.deathHook v.vid entry.1.sid] else []) ++
              (if v.connected then [Effect.respawnVeh v.vid] else [])
            let r := respawnUnoccupiedRun world st' rest
            (r.1, effs ++ r.2)

/-- Embedding of `respawnUnoccupiedVehicles()`: iterate over all live entries. -/
def respawnUnoccupiedVehicles (world : List Vehicle) (st : StreamerState) :
    StreamerState × List Effect :=
  respawnUnoccupiedRun world st st.vehicles

/-- One pass of the `processUnoccupiedVehicleUpdates` drift sweep over the
entries of `vehicles_`: skip occupied vehicles, vehicles that already have a
respawn token, and vehicles still close to their canonical position in the
same world and interior; schedule every other vehicle for respawn at
multiplier one half.  The log records, in iteration order, each vehicle
identity scheduled and the outcome of its scheduling call. -/
def sweepRun (world : List Vehicle) :
    StreamerState → List (StoredVehicle × Nat) → StreamerState × List (Nat × SchedOutcome)
  | st, [] => (st, [])
  | st, entry :: rest =>
      match findVeh world entry.2 with
      | none => sweepRun world st rest
      | some v =>
          if v.isOccupied then sweepRun world st rest
          else if (mget st.respawnTokens v.vid).isSome then sweepRun world st rest
          else if closeTo v.position entry.1.position UnoccupiedRespawnThreshold &&
              (v.virtualWorld == entry.1.virtualWorld) &&
              (v.interiorId == entry.1.interiorId) then sweepRun world st rest
          else
            let r := scheduleVehicleForRespawn st v entry.1 (1 / 2)
            let rec' := sweepRun world r.1 rest
            (rec'.1, (v.vid, r.2) :: rec'.2)

/-- One iteration of the drift sweep (`processUnoccupiedVehicleUpdates`
runs one such pass every `UnoccupiedVehicleStatusUpdateSec` seconds). -/
def processUnoccupiedVehicleUpdatesOnce (world : List Vehicle) (st : StreamerState) :
    StreamerState × List (Nat × SchedOutcome) :=
  sweepRun world st st.vehicles

/-- Modelled from the spec: the base class's `super.query(position)` spatial
index query, returning the registered descriptors within streaming radius
(Euclidean distance) of the position. -/
def superQuery (registered : List StoredVehicle) (streamingDistance : ℚ)
    (position : Pos) : List StoredVehicle :=
  registered.filter (fun sv => closeTo sv.position position streamingDistance)

/-- The value of `Number.MAX_SAFE_INTEGER`. -/
def maxSafeInteger : ℚ := 9007199254740991

/-- The nearest-live-vehicle loop of `query`.  The source compares plain
`distanceTo` distances (despite naming the variable `squaredDistance`) with
an initial bound of `Number.MAX_SAFE_INTEGER`; the embedding compares the
exact squared distances, which is order-isomorphic, with the squared bound. -/
def closestLoop (position : Pos) :
    List Vehicle → Option Vehicle → ℚ → Option Vehicle
  | [], cur, _ => cur
  | v :: rest, cur, curDist =>
      let d := distSq v.position position
      if curDist < d then closestLoop position rest cur curDist
      else closestLoop position rest (some v) d

/-- The live vehicles of the streamer, in `vehicles_` iteration order,
resolved against the world snapshot. -/
def liveList (world : List Vehicle) (st : StreamerState) : List Vehicle :=
  st.vehicles.filterMap (fun p => findVeh world p.2)

/-- The aggregate returned by `query(position)`. -/
structure QueryResult where
  vehicles : Nat
  models : Nat
  closestVehicle : Option Vehicle
deriving DecidableEq, Repr

/-- Embedding of `query(position)`: count of in-range descriptors, count of their
distinct models, and the closest live vehicle found by `closestLoop`. -/
def query (registered : List StoredVehicle) (streamingDistance : ℚ)
    (world : List Vehicle) (st : StreamerState) (position : Pos) : QueryResult :=
  let storedVehicles := superQuery registered streamingDistance position
  { vehicles := storedVehicles.length,
    models := (storedVehicles.map (fun sv => sv.modelId)).dedup.length,
    closestVehicle :=
      closestLoop position (liveList world st) none (maxSafeInteger * maxSafeInteger) }

/-! ### Basic lemmas about the map embedding -/

theorem mget_nil {α : Type} (k : Nat) : mget ([] : List (Nat × α)) k = none := rfl

theorem mget_cons {α : Type} (a : Nat × α) (m : List (Nat × α)) (k : Nat) :
    mget (a :: m) k = if a.1 = k then some a.2 else mget m k := by
  by_cases h : a.1 = k
  · rw [mget, List.find?_cons_of_pos _ (by simp [h]), if_pos h]
    rfl
  · rw [mget, List.find?_cons_of_neg _ (by simp [h]), if_neg h]
    rfl

theorem mget_mdel {α : Type} (m : List (Nat × α)) (k j : Nat) :
    mget (mdel m k) j = if j = k then none else mget m j := by
  induction m with
  | nil => simp [mget, mdel]
  | cons a m ih =>
    by_cases hak : a.1 = k
    · rw [mdel, List.filter_cons_of_neg (by simp [hak])]
      change mget (mdel m k) j = _
      rw [ih]
      by_cases hjk : j = k
      · rw [if_pos hjk, if_pos hjk]
      · rw [if_neg hjk, if_neg hjk, mget_cons,
          if_neg (show ¬a.1 = j from fun h => hjk (h.symm.trans hak))]
    · rw [mdel, List.filter_cons_of_pos (by simp [hak]), mget_cons]
      change (if a.1 = j then some a.2 else mget (mdel m k) j) = _
      rw [ih, mget_cons]
      by_cases haj : a.1 = j
      · by_cases hjk : j = k
        · exact absurd (haj.trans hjk) hak
        · rw [if_pos haj, if_neg hjk, if_pos haj]
      · rw [if_neg haj, if_neg haj]

theorem mget_mdel_self {α : Type} (m : List (Nat × α)) (k : Nat) :
    mget (mdel m k) k = none := by
  rw [mget_mdel, if_pos rfl]

theorem mget_mdel_ne {α : Type} (m : List (Nat × α)) (k j : Nat) (h : j ≠ k) :
    mget (mdel m k) j = mget m j := by
  rw [mget_mdel, if_neg h]

theorem mget_mset_self {α : Type} (m : List (Nat × α)) (k : Nat) (v : α) :
    mget (mset m k v) k = some v := by
  rw [mset, mget_cons, if_pos rfl]

theorem mget_mset_ne {α : Type} (m : List (Nat × α)) (k j : Nat) (v : α) (h : j ≠ k) :
    mget (mset m k v) j = mget m j := by
  rw [mset, mget_cons, if_neg (Ne.symm h), mget_mdel_ne _ _ _ h]

theorem findVeh_vid {world : List Vehicle} {k : Nat} {v : Vehicle}
    (h : findVeh world k = some v) : v.vid = k := by
  have := List.find?_some h
  simpa using this

theorem findVeh_mem {world : List Vehicle} {k : Nat} {v : Vehicle}
    (h : findVeh world k = some v) : v ∈ world :=
  List.mem_of_find?_eq_some h

/-! ### Demo inputs used by the witness theorems -/

/-- A demo descriptor with an ordinary positive respawn delay. -/
def demoStored : StoredVehicle :=
  { sid := 1, modelId := 411, position := ⟨0, 0, 0⟩, rotation := 90,
    interiorId := 0, virtualWorld := 0, primaryColor := 3, secondaryColor := 4,
    paintjob := 0, numberPlate := "LVP", siren := false, respawnDelay := 30,
    hasDeathFn := true, hasRespawnFn := false }

/-- A demo descriptor carrying the negative "never respawn" sentinel. -/
def demoSentinelStored : StoredVehicle :=
  { demoStored with sid := 2, respawnDelay := -1 }

/-- A demo live vehicle materialized for `demoStored`. -/
def demoVehicle : Vehicle :=
  { vid := 5, position := ⟨0, 0, 0⟩, interiorId := 0, virtualWorld := 0,
    occupantCount := 0, connected := true, trailer := none }

/-- A demo streamer state in which `demoStored` is live as `demoVehicle`
and carries respawn token 7. -/
def demoStateLive : StreamerState :=
  { vehicles := [(demoStored, 5)], storedVehicles := [(5, demoStored)],
    respawnTokens := [(5, 7)], pins := [(1, 0)], nextToken := 8, nextVid := 6 }

/-! ### C1: an invalidated token makes the scheduled respawn a no-op -/

/-- C1: if `scheduleVehicleForRespawn` left a pending respawn with a given
token, and by the time the timer fires the vehicle's token entry has been
replaced or cleared (so it no longer equals the captured token), or the
vehicle is disconnected, then the firing continuation returns the state
unchanged and produces no external effect: no unpin, no token change, no
death hook invocation and no respawn. -/
theorem scheduled_respawn_stale_token_no_op
    (st0 st0' st1 : StreamerState) (world : List Vehicle) (v w : Vehicle)
    (sv : StoredVehicle) (m : ℚ) (tok : Nat) (rt : ℚ)
    (_hsched : scheduleVehicleForRespawn st0 v sv m = (st0', SchedOutcome.pending tok rt))
    (_hvid : w.vid = v.vid)
    (hstale : mget st1.respawnTokens w.vid ≠ some tok ∨ w.connected = false) :
    fireScheduledRespawn world st1 w tok = (st1, []) := by
  unfold fireScheduledRespawn
  rcases hstale with h | h
  · rw [if_pos (Or.inr h)]
  · rw [if_pos (Or.inl h)]

/-- C1 witness: schedule a respawn for `demoVehicle` (token 0), then fire
in a state whose token table is empty. -/
theorem scheduled_respawn_stale_token_no_op_witness :
    fireScheduledRespawn [] initialState demoVehicle 0 = (initialState, []) :=
  scheduled_respawn_stale_token_no_op initialState
    { initialState with
        respawnTokens := mset initialState.respawnTokens demoVehicle.vid initialState.nextToken,
        nextToken := initialState.nextToken + 1 }
    initialState [] demoVehicle demoVehicle demoStored 1 initialState.nextToken
    (demoStored.respawnDelay * 1)
    (by simp only [scheduleVehicleForRespawn]
        rw [if_neg (by norm_num [demoStored])])
    rfl (Or.inl (by simp [initialState, demoVehicle, mget]))

/-! ### C4: the negative "never" sentinel disables the respawn -/

/-- C4: for a descriptor whose `respawnDelay` is the negative "never"
sentinel, `scheduleVehicleForRespawn` with any positive multiplier takes
the early-exit branch: it immediately removes the recent-usage pin from
the descriptor and reports `noRespawn` — no token is assigned (the token
table of the resulting state is untouched) and no timer is started, so the
vehicle is never respawned by this call. -/
theorem sentinel_delay_never_schedules
    (st : StreamerState) (v : Vehicle) (sv : StoredVehicle) (m : ℚ)
    (hd : sv.respawnDelay < 0) (hm : 0 < m) :
    scheduleVehicleForRespawn st v sv m =
      ({ st with pins := pinErase st.pins sv.sid recentUsagePin },
       SchedOutcome.noRespawn) := by
  have hneg : sv.respawnDelay * m < 0 := mul_neg_of_neg_of_pos hd hm
  unfold scheduleVehicleForRespawn
  rw [if_pos hneg]

/-- C4 witness: the sentinel descriptor at multiplier 1. -/
theorem sentinel_delay_never_schedules_witness :
    scheduleVehicleForRespawn demoStateLive demoVehicle demoSentinelStored 1 =
      ({ demoStateLive with
           pins := pinErase demoStateLive.pins demoSentinelStored.sid recentUsagePin },
       SchedOutcome.noRespawn) :=
  sentinel_delay_never_schedules demoStateLive demoVehicle demoSentinelStored 1
    (by norm_num [demoSentinelStored, demoStored]) (by norm_num)

/-! ### C5: entering a managed vehicle pins it and clears its token -/

/-- C5: when a player enters a vehicle the streamer manages,
`onPlayerEnterVehicle` applies the recent-usage pin to the vehicle's
descriptor and deletes the vehicle's respawn token (so a pending scheduled
respawn fails its token re-validation and becomes a no-op); a vehicle the
streamer does not manage leaves the state completely unchanged. -/
theorem enter_pins_descriptor_and_clears_token (st : StreamerState) (v : Vehicle) :
    (∀ sv, mget st.storedVehicles v.vid = some sv →
       onPlayerEnterVehicle st v =
         { st with pins := pinInsert st.pins sv.sid recentUsagePin,
                   respawnTokens := mdel st.respawnTokens v.vid }) ∧
    (mget st.storedVehicles v.vid = none → onPlayerEnterVehicle st v = st) := by
  constructor
  · intro sv h
    simp only [onPlayerEnterVehicle, h]
  · intro h
    simp only [onPlayerEnterVehicle, h]

/-- C5 witness: `demoVehicle` is managed in `demoStateLive`. -/
theorem enter_pins_descriptor_and_clears_token_witness :
    onPlayerEnterVehicle demoStateLive demoVehicle =
      { demoStateLive with
          pins := pinInsert demoStateLive.pins demoStored.sid recentUsagePin,
          respawnTokens := mdel demoStateLive.respawnTokens demoVehicle.vid } :=
  (enter_pins_descriptor_and_clears_token demoStateLive demoVehicle).1 demoStored rfl

/-! ### C6: leaving with no occupants left schedules at full delay -/

/-- C6: when a player leaves a managed vehicle and no occupants remain
(the occupant count observed at event time, which still includes the
leaver, is at most one), `onPlayerLeaveVehicle` invokes the scheduler at
multiplier 1, so for a non-sentinel delay a respawn becomes pending after
exactly `respawnDelay` seconds; when occupants remain (count above one)
nothing happens and the token table is unchanged. -/
theorem leave_schedules_full_delay (st : StreamerState) (v : Vehicle) (sv : StoredVehicle)
    (hsv : mget st.storedVehicles v.vid = some sv) :
    (v.occupantCount ≤ 1 → 0 ≤ sv.respawnDelay →
       onPlayerLeaveVehicle st v =
         ({ st with respawnTokens := mset st.respawnTokens v.vid st.nextToken,
                    nextToken := st.nextToken + 1 },
          some (SchedOutcome.pending st.nextToken sv.respawnDelay))) ∧
    (1 < v.occupantCount → onPlayerLeaveVehicle st v = (st, none)) := by
  constructor
  · intro hocc hd
    simp only [onPlayerLeaveVehicle, hsv]
    rw [if_neg (by omega)]
    simp only [scheduleVehicleForRespawn]
    rw [if_neg (by rw [mul_one]; exact not_lt.2 hd), mul_one]
  · intro hocc
    simp only [onPlayerLeaveVehicle, hsv]
    rw [if_pos hocc]

/-- C6 witness: `demoVehicle` (unoccupied) leaves in `demoStateLive`. -/
theorem leave_schedules_full_delay_witness :
    onPlayerLeaveVehicle demoStateLive demoVehicle =
      ({ demoStateLive with
           respawnTokens := mset demoStateLive.respawnTokens demoVehicle.vid
             demoStateLive.nextToken,
           nextToken := demoStateLive.nextToken + 1 },
       some (SchedOutcome.pending demoStateLive.nextToken demoStored.respawnDelay)) :=
  (leave_schedules_full_delay demoStateLive demoVehicle demoStored rfl).1
    (by decide) (by norm_num [demoStored])

/-! ### C8: double-create and delete-of-absent fail fast -/

/-- C8: `createEntity` on a descriptor that already has a live vehicle
throws, and `deleteEntity` on a descriptor with no live vehicle throws.
In the source both throws happen before any mutation, so the failing call
leaves the maps and token table unchanged (in the embedding an
`Except.error` result carries no successor state at all). -/
theorem create_delete_contract_violations
    (st : StreamerState) (sv : StoredVehicle) (world : List Vehicle) :
    ((vfind st.vehicles sv.sid).isSome = true →
       createEntity st sv =
         Except.error "Attempting to create a vehicle that already exists.") ∧
    (vfind st.vehicles sv.sid = none →
       deleteEntity world st sv =
         Except.error "Attempting to delete an invalid vehicle.") := by
  constructor
  · intro h
    simp only [createEntity]
    rw [if_pos h]
  · intro h
    simp only [deleteEntity, h]

/-- C8 witness: `demoStored` is already live in `demoStateLive` (create
fails fast) and has no live vehicle in `initialState` (delete fails fast). -/
theorem create_delete_contract_violations_witness :
    createEntity demoStateLive demoStored =
        Except.error "Attempting to create a vehicle that already exists." ∧
      deleteEntity [] initialState demoStored =
        Except.error "Attempting to delete an invalid vehicle." :=
  ⟨(create_delete_contract_violations demoStateLive demoStored []).1 rfl,
   (create_delete_contract_violations initialState demoStored []).2 rfl⟩

/-! ### C7: a valid firing cascades through the trailer chain -/

/-- The list of vehicles the cascade loop visits: the vehicle itself, then
its trailer, that trailer's trailer, and so on, resolved against the world
snapshot, in visit order. -/
def chainList (world : List Vehicle) : Nat → Option Vehicle → List Vehicle
  | 0, _ => []
  | _ + 1, none => []
  | fuel + 1, some v => v :: chainList world fuel (v.trailer.bind (findVeh world))

/-- Sequential composition of `respawnLink` over a list of chain links:
each link's bookkeeping updates and external effects are performed before
moving to the next link. -/
def runChain : StreamerState → List Vehicle → StreamerState × List Effect
  | st, [] => (st, [])
  | st, v :: rest =>
      let r1 := respawnLink st v
      let r2 := runChain r1.1 rest
      (r2.1, r1.2 ++ r2.2)

theorem respawnChainLoop_eq_runChain (world : List Vehicle) :
    ∀ (fuel : Nat) (st : StreamerState) (cur : Option Vehicle),
      respawnChainLoop world fuel st cur = runChain st (chainList world fuel cur) := by
  intro fuel
  induction fuel with
  | zero =>
    intro st cur
    cases cur <;> rfl
  | succ n ih =>
    intro st cur
    cases cur with
    | none => rfl
    | some v =>
      simp only [respawnChainLoop, chainList, runChain, ih]

/-- C7: when a scheduled respawn fires while the vehicle is still connected
and its captured token is still current, the firing performs exactly the
sequential cascade over the chain vehicle, trailer, trailer's trailer, ...
(`chainList`), where each link managed by the streamer has its recent-usage
pin removed, its own token deleted and its death hook invoked if present,
and each link still connected is respawned, before the loop moves to the
next link. -/
theorem valid_firing_cascades_through_trailer_chain
    (world : List Vehicle) (st : StreamerState) (v : Vehicle) (tok : Nat)
    (hconn : v.connected = true)
    (htok : mget st.respawnTokens v.vid = some tok) :
    fireScheduledRespawn world st v tok =
        runChain st (chainList world (world.length + 1) (some v)) ∧
      ∀ (st' : StreamerState) (w : Vehicle) (sv : StoredVehicle),
        mget st'.storedVehicles w.vid = some sv →
        respawnLink st' w =
          ({ st' with pins := pinErase st'.pins sv.sid recentUsagePin,
                      respawnTokens := mdel st'.respawnTokens w.vid },
           (if sv.hasDeathFn then [Effect.deathHook w.vid sv.sid] else []) ++
             (if w.connected then [Effect.respawnVeh w.vid] else [])) := by
  constructor
  · unfold fireScheduledRespawn
    rw [if_neg (by simp [hconn, htok])]
    exact respawnChainLoop_eq_runChain world (world.length + 1) st (some v)
  · intro st' w sv h
    simp only [respawnLink, h]

/-- A demo trailer descriptor and live chain for the C7 witness. -/
def demoTrailerStored : StoredVehicle :=
  { demoStored with sid := 3, modelId := 435, hasDeathFn := false }

/-- The towing vehicle of the demo chain, with the trailer attached. -/
def demoTruck : Vehicle :=
  { vid := 5, position := ⟨0, 0, 0⟩, interiorId := 0, virtualWorld := 0,
    occupantCount := 0, connected := true, trailer := some 6 }

/-- The attached trailer of the demo chain. -/
def demoTrailerVeh : Vehicle :=
  { vid := 6, position := ⟨0, 0, 0⟩, interiorId := 0, virtualWorld := 0,
    occupantCount := 0, connected := true, trailer := none }

/-- World snapshot holding the demo truck-and-trailer chain. -/
def demoChainWorld : List Vehicle := [demoTruck, demoTrailerVeh]

/-- Streamer state in which both demo chain links are managed and the
truck carries respawn token 7. -/
def demoChainState : StreamerState :=
  { vehicles := [(demoStored, 5), (demoTrailerStored, 6)],
    storedVehicles := [(5, demoStored), (6, demoTrailerStored)],
    respawnTokens := [(5, 7)], pins := [(1, 0), (3, 0)],
    nextToken := 8, nextVid := 7 }

/-- C7 witness: firing the truck's token 7 in the demo chain state. -/
theorem valid_firing_cascades_through_trailer_chain_witness :
    fireScheduledRespawn demoChainWorld demoChainState demoTruck 7 =
        runChain demoChainState
          (chainList demoChainWorld (demoChainWorld.length + 1) (some demoTruck)) ∧
      ∀ (st' : StreamerState) (w : Vehicle) (sv : StoredVehicle),
        mget st'.storedVehicles w.vid = some sv →
        respawnLink st' w =
          ({ st' with pins := pinErase st'.pins sv.sid recentUsagePin,
                      respawnTokens := mdel st'.respawnTokens w.vid },
           (if sv.hasDeathFn then [Effect.deathHook w.vid sv.sid] else []) ++
             (if w.connected then [Effect.respawnVeh w.vid] else [])) :=
  valid_firing_cascades_through_trailer_chain demoChainWorld demoChainState
    demoTruck 7 rfl rfl

/-! ### C10: forced respawn of unoccupied vehicles -/

/-- Whether the live vehicle with the given identity is present in the
world snapshot and currently unoccupied. -/
def unoccNow (world : List Vehicle) (vid : Nat) : Bool :=
  match findVeh world vid with
  | some v => v.occupantCount == 0
  | none => false

/-- The external effects `respawnUnoccupiedVehicles` produces for one
unoccupied entry: its descriptor's death hook if present, then a respawn
if the vehicle is still connected. -/
def unoccEffects (world : List Vehicle) (entry : StoredVehicle × Nat) : List Effect :=
  match findVeh world entry.2 with
  | some v =>
      (if entry.1.hasDeathFn then [Effect.deathHook v.vid entry.1.sid] else []) ++
        (if v.connected then [Effect.respawnVeh v.vid] else [])
  | none => []

/-- The vehicle identities of the unoccupied entries among the given map
entries. -/
def unoccTargetVids (world : List Vehicle) (entries : List (StoredVehicle × Nat)) : List Nat :=
  (entries.filter (fun e => unoccNow world e.2)).map (fun e => e.2)

theorem respawnUnoccupiedRun_spec (world : List Vehicle) :
    ∀ (entries : List (StoredVehicle × Nat)) (st : StreamerState),
      respawnUnoccupiedRun world st entries =
        ({ st with respawnTokens := st.respawnTokens.filter (fun p => !(unoccTargetVids world entries).contains p.1) },
         (entries.filter (fun e => unoccNow world e.2)).flatMap (unoccEffects world)) := by
  intro entries
  induction entries with
  | nil =>
    intro st
    simp [respawnUnoccupiedRun, unoccTargetVids, List.filter_true]
  | cons entry rest ih =>
    intro st
    cases hfind : findVeh world entry.2 with
    | none =>
      have hno : unoccNow world entry.2 = false := by
        simp [unoccNow, hfind]
      have htarg : unoccTargetVids world (entry :: rest) = unoccTargetVids world rest := by
        simp [unoccTargetVids, List.filter_cons, hno]
      simp only [respawnUnoccupiedRun, hfind]
      rw [ih, htarg]
      simp [List.filter_cons, hno]
    | some v =>
      by_cases hocc : 0 < v.occupantCount
      · have hno : unoccNow world entry.2 = false := by
          simp [unoccNow, hfind]
          omega
        have htarg : unoccTargetVids world (entry :: rest) = unoccTargetVids world rest := by
          simp [unoccTargetVids, List.filter_cons, hno]
        simp only [respawnUnoccupiedRun, hfind]
        rw [if_pos hocc, ih, htarg]
        simp [List.filter_cons, hno]
      · have hvid : v.vid = entry.2 := findVeh_vid hfind
        have hyes : unoccNow world entry.2 = true := by
          simp [unoccNow, hfind]
          omega
        simp only [respawnUnoccupiedRun, hfind]
        rw [if_neg hocc, ih]
        have heff : unoccEffects world entry =
            (if entry.1.hasDeathFn then [Effect.deathHook v.vid entry.1.sid] else []) ++
              (if v.connected then [Effect.respawnVeh v.vid] else []) := by
          simp [unoccEffects, hfind]
        have htok : (mdel st.respawnTokens v.vid).filter
              (fun p => !(unoccTargetVids world rest).contains p.1) =
            st.respawnTokens.filter
              (fun p => !(unoccTargetVids world (entry :: rest)).contains p.1) := by
          rw [mdel, List.filter_filter]
          apply List.filter_congr
          intro x _
          have : unoccTargetVids world (entry :: rest) =
              entry.2 :: unoccTargetVids world rest := by
            simp [unoccTargetVids, List.filter_cons, hyes]
          rw [this, hvid, List.contains_cons, Bool.not_or, bne, Bool.and_comm]
        rw [htok.symm]
        simp [List.filter_cons, hyes, heff]

/-- C10: `respawnUnoccupiedVehicles` touches only the token table and only
at the identities of currently unoccupied live vehicles — every such
vehicle's respawn token is deleted, its descriptor's death hook is invoked
if present and it is respawned if still connected — while the two identity
maps and the entire pin table are returned unchanged (so a recent-usage
pin survives this forced respawn), and occupied vehicles contribute no
token deletion and no effect. -/
theorem respawn_unoccupied_only_affects_unoccupied (world : List Vehicle) (st : StreamerState) :
    respawnUnoccupiedVehicles world st =
      ({ st with respawnTokens := st.respawnTokens.filter (fun p => !(unoccTargetVids world st.vehicles).contains p.1) },
       (st.vehicles.filter (fun e => unoccNow world e.2)).flatMap (unoccEffects world)) :=
  respawnUnoccupiedRun_spec world st.vehicles st

/-! ### C2: the descriptor/live maps stay mutually inverse -/

/-- The two identity maps form a partial bijection: every entry of either
map has its reverse entry in the other, no descriptor identity appears
twice, and no live-vehicle identity appears twice (in either map). -/
def PartialBijection (st : StreamerState) : Prop :=
  (∀ (sv : StoredVehicle) (vid : Nat),
      (sv, vid) ∈ st.vehicles ↔ (vid, sv) ∈ st.storedVehicles) ∧
    (st.vehicles.map (fun p => p.1.sid)).Nodup ∧
    (st.vehicles.map (fun p => p.2)).Nodup ∧
    (st.storedVehicles.map (fun p => p.1)).Nodup ∧
    (st.storedVehicles.map (fun p => p.2.sid)).Nodup

/-- Every live identity in the map is below the freshness counter, so
engine identities handed out by `createEntity` are genuinely new. -/
def VidsFresh (st : StreamerState) : Prop :=
  ∀ p ∈ st.vehicles, p.2 < st.nextVid

theorem createEntity_preserves (st : StreamerState) (sv : StoredVehicle)
    (st' : StreamerState) (veh : Vehicle)
    (hok : createEntity st sv = Except.ok (st', veh))
    (hbij : PartialBijection st) (hfresh : VidsFresh st) :
    PartialBijection st' ∧ VidsFresh st' := by
  obtain ⟨hIff, hsids, hvids, hskeys, hssids⟩ := hbij
  unfold createEntity at hok
  by_cases h : (vfind st.vehicles sv.sid).isSome
  · rw [if_pos h] at hok
    exact absurd hok (by simp)
  · rw [if_neg h] at hok
    simp only [Except.ok.injEq, Prod.mk.injEq] at hok
    obtain ⟨hst, -⟩ := hok
    subst hst
    have hsid : ∀ p ∈ st.vehicles, p.1.sid ≠ sv.sid := by
      intro p hp hcontr
      have := List.find?_eq_none.1 (Option.not_isSome_iff_eq_none.1 h) p hp
      simp [hcontr] at this
    refine ⟨⟨?_, ?_, ?_, ?_, ?_⟩, ?_⟩
    · intro sv' vid'
      simp only [List.mem_cons, Prod.mk.injEq]
      constructor
      · rintro (⟨h1, h2⟩ | hm)
        · exact Or.inl ⟨h2, h1⟩
        · exact Or.inr ((hIff sv' vid').1 hm)
      · rintro (⟨h1, h2⟩ | hm)
        · exact Or.inl ⟨h2, h1⟩
        · exact Or.inr ((hIff sv' vid').2 hm)
    · rw [List.map_cons]
      refine List.nodup_cons.2 ⟨?_, hsids⟩
      intro hmem
      obtain ⟨p, hp, hps⟩ := List.mem_map.1 hmem
      exact hsid p hp hps
    · rw [List.map_cons]
      refine List.nodup_cons.2 ⟨?_, hvids⟩
      intro hmem
      obtain ⟨p, hp, hp2⟩ := List.mem_map.1 hmem
      have := hfresh p hp
      omega
    · rw [List.map_cons]
      refine List.nodup_cons.2 ⟨?_, hskeys⟩
      intro hmem
      obtain ⟨q, hq, hq1⟩ := List.mem_map.1 hmem
      have hv : (q.2, q.1) ∈ st.vehicles := (hIff q.2 q.1).2 hq
      have := hfresh (q.2, q.1) hv
      simp only at this
      omega
    · rw [List.map_cons]
      refine List.nodup_cons.2 ⟨?_, hssids⟩
      intro hmem
      obtain ⟨q, hq, hq2⟩ := List.mem_map.1 hmem
      have hv : (q.2, q.1) ∈ st.vehicles := (hIff q.2 q.1).2 hq
      exact hsid (q.2, q.1) hv hq2
    · intro p hp
      rcases List.mem_cons.1 hp with hp | hp
      · rw [hp]
        simp
      · have := hfresh p hp
        simp only
        omega

theorem deleteEntity_preserves (world : List Vehicle) (st : StreamerState)
    (sv : StoredVehicle) (st' : StreamerState) (effs : List Effect)
    (hok : deleteEntity world st sv = Except.ok (st', effs))
    (hbij : PartialBijection st) (hfresh : VidsFresh st) :
    PartialBijection st' ∧ VidsFresh st' := by
  obtain ⟨hIff, hsids, hvids, hskeys, hssids⟩ := hbij
  unfold deleteEntity at hok
  cases hfind : vfind st.vehicles sv.sid with
  | none =>
    rw [hfind] at hok
    exact absurd hok (by simp)
  | some entry =>
    rw [hfind] at hok
    simp only [Except.ok.injEq, Prod.mk.injEq] at hok
    obtain ⟨hst, -⟩ := hok
    subst hst
    have hentry : entry ∈ st.vehicles := List.mem_of_find?_eq_some hfind
    have hesid : entry.1.sid = sv.sid := by
      have := List.find?_some hfind
      simpa using this
    have hkey : ∀ p ∈ st.vehicles, (p.1.sid = sv.sid ↔ p.2 = entry.2) := by
      intro p hp
      constructor
      · intro hps
        have : p = entry :=
          List.inj_on_of_nodup_map hsids hp hentry (by rw [hps, hesid])
        rw [this]
      · intro hp2
        have : p = entry := List.inj_on_of_nodup_map hvids hp hentry hp2
        rw [this, hesid]
    refine ⟨⟨?_, ?_, ?_, ?_, ?_⟩, ?_⟩
    · intro sv' vid'
      simp only [List.mem_filter, mdel]
      constructor
      · rintro ⟨hm, hne⟩
        refine ⟨(hIff sv' vid').1 hm, ?_⟩
        simp only [bne_iff_ne, ne_eq] at hne ⊢
        intro hcontr
        exact hne ((hkey (sv', vid') hm).2 hcontr)
      · rintro ⟨hm, hne⟩
        have hv : (sv', vid') ∈ st.vehicles := (hIff sv' vid').2 hm
        refine ⟨hv, ?_⟩
        simp only [bne_iff_ne, ne_eq] at hne ⊢
        intro hcontr
        exact hne ((hkey (sv', vid') hv).1 hcontr)
    · exact ((List.filter_sublist _).map _).nodup hsids
    · exact ((List.filter_sublist _).map _).nodup hvids
    · exact ((List.filter_sublist _).map _).nodup hskeys
    · exact ((List.filter_sublist _).map _).nodup hssids
    · intro p hp
      exact hfresh p (List.mem_filter.1 hp).1

/-- A lifecycle operation on the streamer: materialize or dematerialize a
descriptor.  A thrown contract violation is caught at the call boundary,
leaving the state as it was. -/
inductive StreamOp where
  | addVeh (sv : StoredVehicle)
  | removeVeh (sv : StoredVehicle)
deriving Repr

/-- Apply one operation; a failing (throwing) call leaves the state
unchanged, since both throws occur before any mutation. -/
def applyOp (st : StreamerState) : StreamOp → StreamerState
  | StreamOp.addVeh sv =>
      match createEntity st sv with
      | Except.ok r => r.1
      | Except.error _ => st
  | StreamOp.removeVeh sv =>
      match deleteEntity [] st sv with
      | Except.ok r => r.1
      | Except.error _ => st

/-- Run a sequence of lifecycle operations from a starting state. -/
def runOps (st : StreamerState) : List StreamOp → StreamerState
  | [] => st
  | op :: ops => runOps (applyOp st op) ops

theorem applyOp_preserves (st : StreamerState) (op : StreamOp)
    (h : PartialBijection st ∧ VidsFresh st) :
    PartialBijection (applyOp st op) ∧ VidsFresh (applyOp st op) := by
  cases op with
  | addVeh sv =>
    simp only [applyOp]
    cases hc : createEntity st sv with
    | error e => exact h
    | ok r => exact createEntity_preserves st sv r.1 r.2 (by rw [hc]) h.1 h.2
  | removeVeh sv =>
    simp only [applyOp]
    cases hc : deleteEntity [] st sv with
    | error e => exact h
    | ok r => exact deleteEntity_preserves [] st sv r.1 r.2 (by rw [hc]) h.1 h.2

theorem runOps_preserves (ops : List StreamOp) :
    ∀ st : StreamerState, PartialBijection st ∧ VidsFresh st →
      PartialBijection (runOps st ops) ∧ VidsFresh (runOps st ops) := by
  induction ops with
  | nil => intro st h; exact h
  | cons op ops ih =>
    intro st h
    exact ih (applyOp st op) (applyOp_preserves st op h)

/-- C2: after any sequence of `createEntity`/`deleteEntity` operations
starting from the empty streamer, the maps `vehicles_` (descriptor to
live) and `storedVehicles_` (live to descriptor) are mutual inverses —
a partial bijection: never two descriptors to one live vehicle, never two
live vehicles for one descriptor, and every entry of either map has the
matching reverse entry in the other. -/
theorem maps_remain_partial_bijection (ops : List StreamOp) :
    PartialBijection (runOps initialState ops) :=
  (runOps_preserves ops initialState
    (by constructor
        · exact ⟨fun _ _ => by simp [initialState], by simp [initialState],
            by simp [initialState], by simp [initialState], by simp [initialState]⟩
        · intro p hp
          simp [initialState] at hp)).1

/-! ### C3: the drift sweep schedules exactly the drifted vehicles -/

/-- The drift-sweep scheduling condition for one live vehicle against its
descriptor: unoccupied, no current respawn token, and either moved beyond
the drift threshold or in a different virtual world or interior than the
descriptor's canonical values. -/
def driftCondition (tokens : List (Nat × Nat)) (sv : StoredVehicle) (v : Vehicle) : Prop :=
  v.occupantCount = 0 ∧ mget tokens v.vid = none ∧
    ¬(closeTo v.position sv.position UnoccupiedRespawnThreshold = true ∧
      v.virtualWorld = sv.virtualWorld ∧ v.interiorId = sv.interiorId)

theorem driftCondition_congr {t1 t2 : List (Nat × Nat)} {sv : StoredVehicle} {v : Vehicle}
    (h : mget t1 v.vid = mget t2 v.vid) :
    driftCondition t1 sv v ↔ driftCondition t2 sv v := by
  unfold driftCondition
  rw [h]

/-- Shape of the outcome of a drift-triggered scheduling call: either the
sentinel branch, or a pending respawn at exactly half the descriptor's
delay. -/
def halfOutcome (sv : StoredVehicle) (o : SchedOutcome) : Prop :=
  (sv.respawnDelay < 0 ∧ o = SchedOutcome.noRespawn) ∨
    (0 ≤ sv.respawnDelay ∧
      ∃ tok, o = SchedOutcome.pending tok (sv.respawnDelay * (1 / 2)))

theorem schedule_half_outcome (st : StreamerState) (v : Vehicle) (sv : StoredVehicle) :
    halfOutcome sv (scheduleVehicleForRespawn st v sv (1 / 2)).2 := by
  unfold scheduleVehicleForRespawn halfOutcome
  by_cases hneg : sv.respawnDelay * (1 / 2) < 0
  · rw [if_pos hneg]
    exact Or.inl ⟨by linarith, rfl⟩
  · rw [if_neg hneg]
    push_neg at hneg
    exact Or.inr ⟨by linarith, st.nextToken, rfl⟩

theorem schedule_tokens_ne (st : StreamerState) (v : Vehicle) (sv : StoredVehicle)
    (m : ℚ) (k : Nat) (h : k ≠ v.vid) :
    mget (scheduleVehicleForRespawn st v sv m).1.respawnTokens k =
      mget st.respawnTokens k := by
  unfold scheduleVehicleForRespawn
  by_cases hneg : sv.respawnDelay * m < 0
  · rw [if_pos hneg]
  · rw [if_neg hneg]
    exact mget_mset_ne _ _ _ _ h

theorem sweepRun_log_vids (world : List Vehicle) :
    ∀ (entries : List (StoredVehicle × Nat)) (st : StreamerState) (k : Nat) (o : SchedOutcome),
      (k, o) ∈ (sweepRun world st entries).2 → k ∈ entries.map (fun e => e.2) := by
  intro entries
  induction entries with
  | nil =>
    intro st k o h
    simp [sweepRun] at h
  | cons entry rest ih =>
    intro st k o h
    rw [List.map_cons]
    cases hfind : findVeh world entry.2 with
    | none =>
      simp only [sweepRun, hfind] at h
      exact List.mem_cons_of_mem _ (ih st k o h)
    | some v =>
      simp only [sweepRun, hfind] at h
      by_cases h1 : v.isOccupied = true
      · rw [if_pos h1] at h
        exact List.mem_cons_of_mem _ (ih st k o h)
      · rw [if_neg h1] at h
        by_cases h2 : (mget st.respawnTokens v.vid).isSome = true
        · rw [if_pos h2] at h
          exact List.mem_cons_of_mem _ (ih st k o h)
        · rw [if_neg h2] at h
          by_cases h3 : (closeTo v.position entry.1.position UnoccupiedRespawnThreshold &&
              (v.virtualWorld == entry.1.virtualWorld) &&
              (v.interiorId == entry.1.interiorId)) = true
          · rw [if_pos h3] at h
            exact List.mem_cons_of_mem _ (ih st k o h)
          · rw [if_neg h3] at h
            rcases List.mem_cons.1 h with heq | hm
            · rw [Prod.mk.injEq] at heq
              rw [heq.1, findVeh_vid hfind]
              exact List.mem_cons_self _ _
            · exact List.mem_cons_of_mem _ (ih _ k o hm)

theorem sweepRun_tokens_off_log (world : List Vehicle) :
    ∀ (entries : List (StoredVehicle × Nat)) (st : StreamerState) (k : Nat),
      (∀ o, (k, o) ∉ (sweepRun world st entries).2) →
      mget (sweepRun world st entries).1.respawnTokens k = mget st.respawnTokens k := by
  intro entries
  induction entries with
  | nil =>
    intro st k _
    rfl
  | cons entry rest ih =>
    intro st k hoff
    cases hfind : findVeh world entry.2 with
    | none =>
      simp only [sweepRun, hfind] at hoff ⊢
      exact ih st k hoff
    | some v =>
      simp only [sweepRun, hfind] at hoff ⊢
      by_cases h1 : v.isOccupied = true
      · rw [if_pos h1] at hoff ⊢
        exact ih st k hoff
      · rw [if_neg h1] at hoff ⊢
        by_cases h2 : (mget st.respawnTokens v.vid).isSome = true
        · rw [if_pos h2] at hoff ⊢
          exact ih st k hoff
        · rw [if_neg h2] at hoff ⊢
          by_cases h3 : (closeTo v.position entry.1.position UnoccupiedRespawnThreshold &&
              (v.virtualWorld == entry.1.virtualWorld) &&
              (v.interiorId == entry.1.interiorId)) = true
          · rw [if_pos h3] at hoff ⊢
            exact ih st k hoff
          · rw [if_neg h3] at hoff ⊢
            have hkne : k ≠ v.vid := by
              intro hcontr
              exact hoff (scheduleVehicleForRespawn st v entry.1 (1 / 2)).2
                (by rw [hcontr]; exact List.mem_cons_self _ _)
            have hoff' : ∀ o, (k, o) ∉
                (sweepRun world (scheduleVehicleForRespawn st v entry.1 (1 / 2)).1 rest).2 := by
              intro o hmem
              exact hoff o (List.mem_cons_of_mem _ hmem)
            rw [ih _ k hoff']
            exact schedule_tokens_ne st v entry.1 (1 / 2) k hkne

theorem sweepRun_spec (world : List Vehicle) :
    ∀ (entries : List (StoredVehicle × Nat)) (st : StreamerState),
      (entries.map (fun e => e.2)).Nodup →
      ∀ entry ∈ entries, ∀ v, findVeh world entry.2 = some v →
        (driftCondition st.respawnTokens entry.1 v →
          ∃ o, (v.vid, o) ∈ (sweepRun world st entries).2 ∧ halfOutcome entry.1 o) ∧
        (¬driftCondition st.respawnTokens entry.1 v →
          ∀ o, (v.vid, o) ∉ (sweepRun world st entries).2) := by
  intro entries
  induction entries with
  | nil =>
    intro st _ entry hmem
    exact absurd hmem (List.not_mem_nil entry)
  | cons entry' rest ih =>
    intro st hnd entry hmem v hfind
    have hnd' : (rest.map (fun e => e.2)).Nodup := (List.nodup_cons.1 (by simpa using hnd)).2
    have hhead : entry'.2 ∉ rest.map (fun e => e.2) := (List.nodup_cons.1 (by simpa using hnd)).1
    rcases List.mem_cons.1 hmem with rfl | hmem'
    · -- the entry under consideration is the head of the iteration
      have hvid : v.vid = entry.2 := findVeh_vid hfind
      constructor
      · rintro ⟨hocc, htok, hfar⟩
        have hcond : (closeTo v.position entry.1.position UnoccupiedRespawnThreshold &&
            (v.virtualWorld == entry.1.virtualWorld) &&
            (v.interiorId == entry.1.interiorId)) = false := by
          rw [← Bool.not_eq_true]
          simpa [Bool.and_eq_true, beq_iff_eq, and_assoc] using hfar
        simp only [sweepRun, hfind]
        rw [if_neg (by simp [Vehicle.isOccupied, hocc]), if_neg (by simp [htok]),
          if_neg (by simp [hcond])]
        exact ⟨(scheduleVehicleForRespawn st v entry.1 (1 / 2)).2,
          List.mem_cons_self _ _, schedule_half_outcome st v entry.1⟩
      · intro hnc o
        by_cases h1 : v.occupantCount = 0
        · by_cases h2 : mget st.respawnTokens v.vid = none
          · by_cases h3 : closeTo v.position entry.1.position UnoccupiedRespawnThreshold = true ∧
                v.virtualWorld = entry.1.virtualWorld ∧ v.interiorId = entry.1.interiorId
            · simp only [sweepRun, hfind]
              rw [if_neg (by simp [Vehicle.isOccupied, h1]), if_neg (by simp [h2]),
                if_pos (by simp [Bool.and_eq_true, beq_iff_eq, and_assoc]; tauto)]
              intro hmemlog
              have := sweepRun_log_vids world rest st v.vid o hmemlog
              rw [hvid] at this
              exact hhead this
            · exact absurd ⟨h1, h2, h3⟩ hnc
          · simp only [sweepRun, hfind]
            rw [if_neg (by simp [Vehicle.isOccupied, h1]),
              if_pos (by simpa [Option.isSome_iff_ne_none] using h2)]
            intro hmemlog
            have := sweepRun_log_vids world rest st v.vid o hmemlog
            rw [hvid] at this
            exact hhead this
        · simp only [sweepRun, hfind]
          rw [if_pos (by simp [Vehicle.isOccupied, h1])]
          intro hmemlog
          have := sweepRun_log_vids world rest st v.vid o hmemlog
          rw [hvid] at this
          exact hhead this
    · -- the entry under consideration sits later in the iteration
      have hvid : v.vid = entry.2 := findVeh_vid hfind
      have hne : entry.2 ≠ entry'.2 := by
        intro hcontr
        exact hhead (hcontr ▸ List.mem_map.2 ⟨entry, hmem', rfl⟩)
      cases hfind' : findVeh world entry'.2 with
      | none =>
        simp only [sweepRun, hfind']
        exact ih st hnd' entry hmem' v hfind
      | some v' =>
        have hvid' : v'.vid = entry'.2 := findVeh_vid hfind'
        simp only [sweepRun, hfind']
        by_cases h1 : v'.isOccupied = true
        · rw [if_pos h1]
          exact ih st hnd' entry hmem' v hfind
        · rw [if_neg h1]
          by_cases h2 : (mget st.respawnTokens v'.vid).isSome = true
          · rw [if_pos h2]
            exact ih st hnd' entry hmem' v hfind
          · rw [if_neg h2]
            by_cases h3 : (closeTo v'.position entry'.1.position UnoccupiedRespawnThreshold &&
                (v'.virtualWorld == entry'.1.virtualWorld) &&
                (v'.interiorId == entry'.1.interiorId)) = true
            · rw [if_pos h3]
              exact ih st hnd' entry hmem' v hfind
            · rw [if_neg h3]
              have htokeq : mget (scheduleVehicleForRespawn st v' entry'.1 (1 / 2)).1.respawnTokens
                  v.vid = mget st.respawnTokens v.vid :=
                schedule_tokens_ne st v' entry'.1 (1 / 2) v.vid
                  (by rw [hvid, hvid']; exact hne)
              have hIH := ih (scheduleVehicleForRespawn st v' entry'.1 (1 / 2)).1
                hnd' entry hmem' v hfind
              constructor
              · intro hc
                obtain ⟨o, homem, hshape⟩ :=
                  hIH.1 ((driftCondition_congr htokeq).2 hc)
                exact ⟨o, List.mem_cons_of_mem _ homem, hshape⟩
              · intro hnc o hmemlog
                rcases List.mem_cons.1 hmemlog with heq | hm
                · rw [Prod.mk.injEq] at heq
                  exact hne (hvid.symm.trans (heq.1.trans hvid'))
                · exact hIH.2 (fun hc =>
                    hnc ((driftCondition_congr htokeq).1 hc)) o hm

/-- C3: one drift-sweep pass (run every `UnoccupiedVehicleStatusUpdateSec`
= 45 seconds) schedules for respawn, at the halved multiplier 0.5, exactly
those live vehicles that are unoccupied, have no current respawn token and
whose live position is more than `UnoccupiedRespawnThreshold` = 1.5 units
from the descriptor's canonical position or whose virtual world or
interior differs from the canonical one; every other live vehicle is not
scheduled and keeps its respawn-token entry unchanged.  (Assumes the map's
live identities are distinct, which C2 establishes for reachable states.) -/
theorem drift_sweep_schedules_exactly_drifted
    (world : List Vehicle) (st : StreamerState)
    (hnd : (st.vehicles.map (fun e => e.2)).Nodup) :
    UnoccupiedVehicleStatusUpdateSec = 45 ∧
    UnoccupiedRespawnThreshold = 3 / 2 ∧
    ∀ entry ∈ st.vehicles, ∀ v, findVeh world entry.2 = some v →
      (driftCondition st.respawnTokens entry.1 v →
        ∃ o, (v.vid, o) ∈ (processUnoccupiedVehicleUpdatesOnce world st).2 ∧
          halfOutcome entry.1 o) ∧
      (¬driftCondition st.respawnTokens entry.1 v →
        (∀ o, (v.vid, o) ∉ (processUnoccupiedVehicleUpdatesOnce world st).2) ∧
        mget (processUnoccupiedVehicleUpdatesOnce world st).1.respawnTokens v.vid =
          mget st.respawnTokens v.vid) := by
  refine ⟨rfl, rfl, ?_⟩
  intro entry hmem v hfind
  have h := sweepRun_spec world st.vehicles st hnd entry hmem v hfind
  refine ⟨h.1, ?_⟩
  intro hnc
  have hoff := h.2 hnc
  exact ⟨hoff, sweepRun_tokens_off_log world st.vehicles st v.vid hoff⟩

/-- A live vehicle nudged two units away from its canonical position. -/
def demoDriftVeh : Vehicle :=
  { vid := 5, position := ⟨2, 0, 0⟩, interiorId := 0, virtualWorld := 0,
    occupantCount := 0, connected := true, trailer := none }

/-- World snapshot for the drift-sweep witness. -/
def demoDriftWorld : List Vehicle := [demoDriftVeh]

/-- Streamer state for the drift-sweep witness: `demoStored` is live as
vehicle 5 with no pending token. -/
def demoDriftState : StreamerState :=
  { vehicles := [(demoStored, 5)], storedVehicles := [(5, demoStored)],
    respawnTokens := [], pins := [], nextToken := 0, nextVid := 6 }

/-- C3 witness: the drifted demo vehicle is scheduled at the halved
multiplier by the sweep. -/
theorem drift_sweep_schedules_exactly_drifted_witness :
    ∃ o, ((5 : Nat), o) ∈ (processUnoccupiedVehicleUpdatesOnce demoDriftWorld demoDriftState).2 ∧
      halfOutcome demoStored o := by
  have hclose : closeTo demoDriftVeh.position demoStored.position
      UnoccupiedRespawnThreshold = false := by
    simp only [closeTo, decide_eq_false_iff_not]
    norm_num [distSq, demoDriftVeh, demoStored, UnoccupiedRespawnThreshold]
  have h := drift_sweep_schedules_exactly_drifted demoDriftWorld demoDriftState
    (by simp [demoDriftState])
  have hc : driftCondition demoDriftState.respawnTokens demoStored demoDriftVeh := by
    refine ⟨rfl, rfl, ?_⟩
    rintro ⟨hA, -⟩
    rw [hclose] at hA
    exact Bool.false_ne_true hA
  have hres := (h.2.2 (demoStored, 5) (List.mem_singleton.2 rfl) demoDriftVeh rfl).1 hc
  simpa [demoDriftVeh] using hres

/-! ### C9: the bulk query and the nearest-live-vehicle loop -/

theorem closestLoop_all_far (pos : Pos) :
    ∀ (l : List Vehicle) (cur : Option Vehicle) (curD : ℚ),
      (∀ v ∈ l, curD < distSq v.position pos) →
      closestLoop pos l cur curD = cur := by
  intro l
  induction l with
  | nil =>
    intro cur curD _
    rfl
  | cons v rest ih =>
    intro cur curD hfar
    simp only [closestLoop]
    rw [if_pos (hfar v (List.mem_cons_self _ _))]
    exact ih cur curD (fun w hw => hfar w (List.mem_cons_of_mem _ hw))

theorem closestLoop_min (pos : Pos) :
    ∀ (l : List Vehicle) (cur : Option Vehicle) (curD : ℚ),
      (∃ v ∈ l, distSq v.position pos ≤ curD) →
      ∃ c ∈ l, closestLoop pos l cur curD = some c ∧
        distSq c.position pos ≤ curD ∧
        ∀ v ∈ l, distSq c.position pos ≤ distSq v.position pos := by
  intro l
  induction l with
  | nil =>
    rintro cur curD ⟨v, hv, -⟩
    exact absurd hv (List.not_mem_nil v)
  | cons v rest ih =>
    intro cur curD hex
    simp only [closestLoop]
    by_cases hv : curD < distSq v.position pos
    · rw [if_pos hv]
      obtain ⟨w, hw, hwd⟩ := hex
      rcases List.mem_cons.1 hw with rfl | hw'
      · exact absurd hwd (not_le.2 hv)
      · obtain ⟨c, hc, heq, hcd, hmin⟩ := ih cur curD ⟨w, hw', hwd⟩
        refine ⟨c, List.mem_cons_of_mem _ hc, heq, hcd, ?_⟩
        intro u hu
        rcases List.mem_cons.1 hu with rfl | hu'
        · exact le_of_lt (lt_of_le_of_lt hcd hv)
        · exact hmin u hu'
    · rw [if_neg hv]
      push_neg at hv
      by_cases hex' : ∃ w ∈ rest, distSq w.position pos ≤ distSq v.position pos
      · obtain ⟨c, hc, heq, hcd, hmin⟩ := ih (some v) (distSq v.position pos) hex'
        refine ⟨c, List.mem_cons_of_mem _ hc, heq, le_trans hcd hv, ?_⟩
        intro u hu
        rcases List.mem_cons.1 hu with rfl | hu'
        · exact hcd
        · exact hmin u hu'
      · push_neg at hex'
        rw [closestLoop_all_far pos rest (some v) (distSq v.position pos) hex']
        refine ⟨v, List.mem_cons_self _ _, rfl, hv, ?_⟩
        intro u hu
        rcases List.mem_cons.1 hu with rfl | hu'
        · exact le_refl _
        · exact le_of_lt (hex' u hu')

/-- A live vehicle farther from the origin than `Number.MAX_SAFE_INTEGER`
units. -/
def farVehicle : Vehicle :=
  { vid := 9, position := ⟨9007199254740992, 0, 0⟩, interiorId := 0,
    virtualWorld := 0, occupantCount := 0, connected := true, trailer := none }

/-- A state whose only live vehicle is `farVehicle`. -/
def farState : StreamerState :=
  { vehicles := [(demoStored, 9)], storedVehicles := [(9, demoStored)],
    respawnTokens := [], pins := [], nextToken := 0, nextVid := 10 }

/-- C9 counterexample: the claim as stated is false.  With one live
(connected) vehicle at distance `2^53` from the query position, `query`
returns `closestVehicle = none` even though a live vehicle exists, because
the loop's initial bound is `Number.MAX_SAFE_INTEGER` and the vehicle's
distance exceeds it — so `closestVehicle` is not "a live vehicle whose
distance is minimal among all currently live vehicles" and is `none`
despite a vehicle being live. -/
theorem query_counterexample_distant_vehicle :
    (query [] 300 [farVehicle] farState ⟨0, 0, 0⟩).closestVehicle = none ∧
      liveList [farVehicle] farState = [farVehicle] := by
  constructor
  · have hq : (query [] 300 [farVehicle] farState ⟨0, 0, 0⟩).closestVehicle =
        closestLoop ⟨0, 0, 0⟩ (liveList [farVehicle] farState) none
          (maxSafeInteger * maxSafeInteger) := rfl
    have hlive : liveList [farVehicle] farState = [farVehicle] := rfl
    rw [hq, hlive]
    apply closestLoop_all_far
    intro v hv
    rw [List.mem_singleton] at hv
    subst hv
    norm_num [distSq, farVehicle, maxSafeInteger]
  · rfl

/-- C9 amended: `query(position)` returns the count of registered
descriptors within streaming radius, the count of their distinct models,
and as `closestVehicle` a live vehicle whose (consistently compared,
unsquared `distanceTo`) distance to the position is minimal among all
currently live vehicles at distance at most `Number.MAX_SAFE_INTEGER` —
`none` exactly when no live vehicle lies within that bound (in particular
when no vehicle is live). -/
theorem query_counts_and_nearest_within_bound
    (registered : List StoredVehicle) (streamingDistance : ℚ)
    (world : List Vehicle) (st : StreamerState) (position : Pos) :
    (query registered streamingDistance world st position).vehicles =
        (superQuery registered streamingDistance position).length ∧
      (query registered streamingDistance world st position).models =
        ((superQuery registered streamingDistance position).map
          (fun sv => sv.modelId)).dedup.length ∧
      ((query registered streamingDistance world st position).closestVehicle = none ↔
        ∀ v ∈ liveList world st,
          maxSafeInteger * maxSafeInteger < distSq v.position position) ∧
      (∀ c, (query registered streamingDistance world st position).closestVehicle = some c →
        c ∈ liveList world st ∧
          distSq c.position position ≤ maxSafeInteger * maxSafeInteger ∧
          ∀ v ∈ liveList world st,
            distSq c.position position ≤ distSq v.position position) := by
  have hq : (query registered streamingDistance world st position).closestVehicle =
      closestLoop position (liveList world st) none
        (maxSafeInteger * maxSafeInteger) := rfl
  refine ⟨rfl, rfl, ?_, ?_⟩
  · rw [hq]
    constructor
    · intro hnone v hv
      by_contra hle
      push_neg at hle
      obtain ⟨c, -, heq, -, -⟩ := closestLoop_min position (liveList world st) none
        (maxSafeInteger * maxSafeInteger) ⟨v, hv, hle⟩
      rw [heq] at hnone
      exact Option.some_ne_none c hnone
    · exact closestLoop_all_far position (liveList world st) none
        (maxSafeInteger * maxSafeInteger)
  · intro c hc
    rw [hq] at hc
    by_cases hex : ∃ v ∈ liveList world st,
        distSq v.position position ≤ maxSafeInteger * maxSafeInteger
    · obtain ⟨c', hc', heq, hcd, hmin⟩ := closestLoop_min position (liveList world st) none
        (maxSafeInteger * maxSafeInteger) hex
      rw [heq] at hc
      have hcc : c' = c := Option.some.inj hc
      subst hcc
      exact ⟨hc', hcd, hmin⟩
    · push_neg at hex
      rw [closestLoop_all_far position (liveList world st) none
        (maxSafeInteger * maxSafeInteger) hex] at hc
      exact absurd hc.symm (Option.some_ne_none c)

/-- C9 amended-claim witness: the characterization instantiated at the
drift-demo inputs. -/
theorem query_counts_and_nearest_within_bound_witness :
    (query [] 300 demoDriftWorld demoDriftState ⟨0, 0, 0⟩).vehicles =
        (superQuery [] 300 ⟨0, 0, 0⟩).length ∧
      (query [] 300 demoDriftWorld demoDriftState ⟨0, 0, 0⟩).models =
        ((superQuery [] 300 ⟨0, 0, 0⟩).map (fun sv => sv.modelId)).dedup.length ∧
      ((query [] 300 demoDriftWorld demoDriftState ⟨0, 0, 0⟩).closestVehicle = none ↔
        ∀ v ∈ liveList demoDriftWorld demoDriftState,
          maxSafeInteger * maxSafeInteger < distSq v.position ⟨0, 0, 0⟩) ∧
      (∀ c, (query [] 300 demoDriftWorld demoDriftState ⟨0, 0, 0⟩).closestVehicle = some c →
        c ∈ liveList demoDriftWorld demoDriftState ∧
          distSq c.position ⟨0, 0, 0⟩ ≤ maxSafeInteger * maxSafeInteger ∧
          ∀ v ∈ liveList demoDriftWorld demoDriftState,
            distSq c.position ⟨0, 0, 0⟩ ≤ distSq v.position ⟨0, 0, 0⟩) :=
  query_counts_and_nearest_within_bound [] 300 demoDriftWorld demoDriftState ⟨0, 0, 0⟩

/-- C2 witness: the partial bijection holds after a concrete operation
sequence (create two descriptors, delete one, with one failing re-create). -/
theorem maps_remain_partial_bijection_witness :
    PartialBijection (runOps initialState
      [StreamOp.addVeh demoStored, StreamOp.addVeh demoSentinelStored,
       StreamOp.addVeh demoStored, StreamOp.removeVeh demoStored]) :=
  maps_remain_partial_bijection
    [StreamOp.addVeh demoStored, StreamOp.addVeh demoSentinelStored,
     StreamOp.addVeh demoStored, StreamOp.removeVeh demoStored]
